import Mathlib

/-!
Shallow embedding of the `dockerstats` package (package file of the repository,
`src/cmd/main.go`, lines 106-358).  Go `float64` values are modelled as `ℚ`
(all arithmetic the code performs on them originates from `uint64`/`uint32`
counters), Go `uint64` values as `ℕ` with an explicit wrap modulo `2^64`
wherever the Go code can overflow or underflow, Go maps as association lists,
and fallible calls as `Except`/`Option`.
-/

/-- The modulus `2^64` of Go `uint64` arithmetic. -/
def U64MOD : ℕ := 2 ^ 64

/-- Go `uint64` subtraction `a - b`, which wraps modulo `2^64`. -/
def u64sub (a b : ℕ) : ℕ := (a % U64MOD + (U64MOD - b % U64MOD)) % U64MOD

/-- Go `uint64` addition `a + b`, which wraps modulo `2^64`. -/
def u64add (a b : ℕ) : ℕ := (a + b) % U64MOD

namespace Types

/-- Fields of `types.CPUUsage` that the code reads. -/
structure CPUUsage where
  TotalUsage : ℕ
  PercpuUsage : List ℕ
deriving Repr, DecidableEq

/-- Fields of `types.CPUStats` that the code reads. -/
structure CPUStats where
  CPUUsage : Types.CPUUsage
  SystemUsage : ℕ
  OnlineCPUs : ℕ
deriving Repr, DecidableEq

/-- Fields of `types.MemoryStats` that the code reads.  `Stats` is the Go map type
`map[string]uint64`, modelled as an association list. -/
structure MemoryStats where
  Usage : ℕ
  Limit : ℕ
  Stats : List (String × ℕ)
deriving Repr, DecidableEq

/-- Go map access `mem.Stats[k]`: the zero value `0` when the key is absent. -/
def MemoryStats.statsGet (mem : MemoryStats) (k : String) : ℕ :=
  (mem.Stats.lookup k).getD 0

/-- Fields of `types.BlkioStatEntry` that the code reads. -/
structure BlkioStatEntry where
  Op : String
  Value : ℕ
deriving Repr, DecidableEq

/-- Field of `types.BlkioStats` that the code reads. -/
structure BlkioStats where
  IoServiceBytesRecursive : List BlkioStatEntry
deriving Repr, DecidableEq

/-- Fields of `types.NetworkStats` that the code reads. -/
structure NetworkStats where
  RxBytes : ℕ
  TxBytes : ℕ
deriving Repr, DecidableEq

/-- Fields of `types.StatsJSON` that the code reads.  `Networks` is the Go map type
`map[string]types.NetworkStats`, modelled as an association list. -/
structure StatsJSON where
  ID : String
  Name : String
  CPUStats : Types.CPUStats
  PreCPUStats : Types.CPUStats
  MemoryStats : Types.MemoryStats
  BlkioStats : Types.BlkioStats
  Networks : List (String × NetworkStats)
deriving Repr, DecidableEq

end Types

/-- The `StatsEntry` output record (main.go lines 134-147).  `KubernetesLabels`
is `map[string]string`, modelled as an association list (the Go zero value, the
nil map, is `[]`). -/
structure StatsEntry where
  ContainerID : String
  ContainerName : String
  CPUPercentage : ℚ
  Memory : ℚ
  MemoryPercentage : ℚ
  MemoryLimit : ℚ
  NetworkRx : ℚ
  NetworkTx : ℚ
  BlockRead : ℚ
  BlockWrite : ℚ
  KubernetesLabels : List (String × String)
deriving Repr, DecidableEq

/-- The Go zero value `&StatsEntry{}`. -/
def StatsEntry.zero : StatsEntry :=
  ⟨"", "", 0, 0, 0, 0, 0, 0, 0, 0, []⟩

/-- Embedding of `Exporter.calcCPUPercent` (main.go lines 304-321). -/
def calcCPUPercent (prevCPU prevSystem : ℕ) (v : Types.StatsJSON) : ℚ :=
  let cpuDelta : ℚ := (v.CPUStats.CPUUsage.TotalUsage : ℚ) - (prevCPU : ℚ)
  let systemDelta : ℚ := (v.CPUStats.SystemUsage : ℚ) - (prevSystem : ℚ)
  let onlineCPUs : ℚ :=
    if (v.CPUStats.OnlineCPUs : ℚ) = 0 then
      (v.CPUStats.CPUUsage.PercpuUsage.length : ℚ)
    else (v.CPUStats.OnlineCPUs : ℚ)
  if systemDelta > 0 ∧ cpuDelta > 0 then
    (cpuDelta / systemDelta) * onlineCPUs * 100
  else 0

/-- Embedding of `Exporter.calcBlockIO` (main.go lines 323-337).  The
accumulators are Go `uint64` variables, so addition wraps modulo `2^64`. -/
def calcBlockIO (blkio : Types.BlkioStats) : ℚ × ℚ :=
  let p : ℕ × ℕ := blkio.IoServiceBytesRecursive.foldl
    (fun acc bioEntry =>
      match bioEntry.Op.data with
      | [] => acc
      | c :: _ =>
        if c = 'r' ∨ c = 'R' then (u64add acc.1 bioEntry.Value, acc.2)
        else if c = 'w' ∨ c = 'W' then (acc.1, u64add acc.2 bioEntry.Value)
        else acc)
    (0, 0)
  ((p.1 : ℚ), (p.2 : ℚ))

/-- Embedding of `Exporter.calcNetwork` (main.go lines 339-346). -/
def calcNetwork (network : List (String × Types.NetworkStats)) : ℚ × ℚ :=
  network.foldl
    (fun acc kv => (acc.1 + (kv.2.RxBytes : ℚ), acc.2 + (kv.2.TxBytes : ℚ)))
    (0, 0)

/-- Embedding of `Exporter.calcMemUsageNoCache` (main.go lines 348-351): the
Go expression is `float64(mem.Usage - mem.Stats["cache"])` with `uint64`
subtraction, which wraps when the cache stat exceeds the usage counter. -/
def calcMemUsageNoCache (mem : Types.MemoryStats) : ℚ :=
  ((u64sub mem.Usage (mem.statsGet "cache") : ℕ) : ℚ)

/-- Embedding of `Exporter.calcMemPercentNoCache` (main.go lines 353-358). -/
def calcMemPercentNoCache (limit usedNoCache : ℚ) : ℚ :=
  if limit ≠ 0 then usedNoCache / limit * 100 else 0

/-- Body of a `types.ContainerStats` response, as `Exporter.getStats` consumes
it.  `nilBody` is the zero-value response produced when `ContainerStats`
returned an error: its `Body` reader is nil, and `ioutil.ReadAll` on it
dereferences a nil interface (a run-time fault).  `badBody` is a body whose
read or JSON unmarshal fails.  `parsed` is a successfully decoded
`types.StatsJSON`. -/
inductive StatsBody where
  | nilBody
  | badBody
  | parsed (v : Types.StatsJSON)
deriving Repr, DecidableEq

/-- Fields of `types.ContainerStats` that the code reads. -/
structure ContainerStatsResp where
  OSType : String
  Body : StatsBody
deriving Repr, DecidableEq

/-- Embedding of `Exporter.getStats` (main.go lines 258-302).  `none` models a
run-time fault (reading a nil body); otherwise the result mirrors the Go pair
`(*StatsEntry, error)` as the returned entry together with an `err != nil`
flag — on error the code returns `&StatsEntry{}`. -/
def getStats (response : ContainerStatsResp) : Option (StatsEntry × Bool) :=
  match response.Body with
  | .nilBody => none
  | .badBody => some (StatsEntry.zero, true)
  | .parsed v =>
    let nonWindows := response.OSType ≠ "windows"
    let prevCPU := v.PreCPUStats.CPUUsage.TotalUsage
    let prevSystem := v.PreCPUStats.SystemUsage
    let cpuPercent : ℚ := if nonWindows then calcCPUPercent prevCPU prevSystem v else 0
    let blk : ℚ × ℚ := if nonWindows then calcBlockIO v.BlkioStats else (0, 0)
    let mem : ℚ := if nonWindows then calcMemUsageNoCache v.MemoryStats else 0
    let memLimit : ℚ := if nonWindows then (v.MemoryStats.Limit : ℚ) else 0
    let memPercent : ℚ := if nonWindows then calcMemPercentNoCache memLimit mem else 0
    let net := calcNetwork v.Networks
    some (⟨v.ID, v.Name, cpuPercent, mem, memPercent, memLimit,
           net.1, net.2, blk.1, blk.2, []⟩, false)

namespace Container

/-- Field of `container.Config` that the code reads. -/
structure Config where
  Labels : List (String × String)
deriving Repr, DecidableEq

end Container

namespace Types

/-- Field of `types.ContainerJSON` that the code reads.  `Config` is a Go
pointer, hence `Option`; the Go zero value of `ContainerJSON` has a nil
`Config`. -/
structure ContainerJSON where
  Config : Option Container.Config
deriving Repr, DecidableEq

end Types

/-- The `KubernetesLabels` vocabulary table (main.go lines 126-131),
`map[string]string` modelled as an association list. -/
def KubernetesLabels : List (String × String) :=
  [("io.kubernetes.pod.namespace", "kubernetes_pod_namespace"),
   ("io.kubernetes.pod.name", "kubernetes_pod_name"),
   ("io.kubernetes.container.name", "kubernetes_container_name")]

/-- Go map access `KubernetesLabels[k]`: the zero value `""` when absent. -/
def kubernetesLabelsGet (k : String) : String :=
  (KubernetesLabels.lookup k).getD ""

/-- The projection loop of `Exporter.getLabels` (main.go lines 250-254):
for each inspected label `(k, v)`, if `KubernetesLabels[k] != ""` then
`labels[KubernetesLabels[k]] = v`. -/
def projectLabels (containerLabels : List (String × String)) : List (String × String) :=
  containerLabels.foldl
    (fun labels kv =>
      if kubernetesLabelsGet kv.1 ≠ "" then labels ++ [(kubernetesLabelsGet kv.1, kv.2)]
      else labels)
    []

/-- Projection described by the spec: map each inspected label through the
fixed three-key vocabulary and drop every unrecognized label. -/
def specProjectLabels (containerLabels : List (String × String)) : List (String × String) :=
  containerLabels.filterMap
    (fun kv => (KubernetesLabels.lookup kv.1).map (fun canonical => (canonical, kv.2)))

/-- A copy of a `StatsEntry` with its `KubernetesLabels` field replaced, as
`stats.KubernetesLabels = labels` does (main.go line 255). -/
def StatsEntry.withLabels (s : StatsEntry) (labels : List (String × String)) : StatsEntry :=
  ⟨s.ContainerID, s.ContainerName, s.CPUPercentage, s.Memory, s.MemoryPercentage,
   s.MemoryLimit, s.NetworkRx, s.NetworkTx, s.BlockRead, s.BlockWrite, labels⟩

/-- Outcome of the `ContainerInspect` call consumed by `Exporter.getLabels`. -/
inductive InspectResult where
  | ok (info : Types.ContainerJSON)
  | err
deriving Repr, DecidableEq

/-- Observable outcome of `Exporter.getLabels`: whether the docker client
handle was recreated, whether a warning was logged, and the updated entry —
`none` models the nil-pointer fault of reading `info.Config.Labels` when
`info.Config` is nil. -/
structure GetLabelsResult where
  reconnected : Bool
  warned : Bool
  stats : Option StatsEntry
deriving Repr, DecidableEq

/-- Embedding of `Exporter.getLabels` (main.go lines 241-256).  On an
inspection error the code recreates the client handle, sleeps and logs a
warning, but does not return: it proceeds with the zero-value
`types.ContainerJSON`, whose `Config` pointer is nil, and then ranges over
`info.Config.Labels`. -/
def getLabels (inspect : InspectResult) (stats : StatsEntry) : GetLabelsResult :=
  let failed := match inspect with | .err => true | .ok _ => false
  let info := match inspect with | .ok i => i | .err => ⟨none⟩
  match info.Config with
  | some cfg => ⟨failed, failed, some (stats.withLabels (projectLabels cfg.Labels))⟩
  | none => ⟨failed, failed, none⟩

/-- Outcome of the `ContainerStats` call inside a `List` worker: either the
call errs (Go then holds the zero-value response, whose body is nil), or it
yields a response. -/
inductive FetchOutcome where
  | fetchErr
  | resp (r : ContainerStatsResp)
deriving Repr, DecidableEq

/-- Per-container behaviour of one collection cycle: the stats-fetch outcome
and the inspection outcome for this container. -/
structure ContainerRun where
  fetch : FetchOutcome
  inspect : InspectResult
deriving Repr, DecidableEq

/-- Entries one worker goroutine of `Exporter.List` (main.go lines 196-212)
sends on the channel, in program order; `none` models a run-time fault of the
worker (which crashes the process, so `List` never returns).  Error branches
send the shared `empty` entry but do not return, so the worker continues:
after a fetch error it reads the nil body of the zero response (fault), and
after a `getStats` error it still labels and sends the zero entry it got
back. -/
def workerEmits (run : ContainerRun) : Option (List StatsEntry) :=
  let respVal := match run.fetch with
    | .fetchErr => ({ OSType := "", Body := StatsBody.nilBody } : ContainerStatsResp)
    | .resp r => r
  let fetchFailed := match run.fetch with | .fetchErr => true | .resp _ => false
  match getStats respVal with
  | none => none
  | some (s, deriveFailed) =>
    match getLabels run.inspect s with
    | ⟨_, _, none⟩ => none
    | ⟨_, _, some labeled⟩ =>
      let pre := (if fetchFailed then [StatsEntry.zero] else [])
        ++ (if deriveFailed then [StatsEntry.zero] else [])
      some (pre ++ [labeled])

/-- Embedding of `Exporter.List` (main.go lines 178-218).  The argument is the
outcome of the `ContainerList` call: an error, or one `ContainerRun` per
listed container.  The result is `none` when a worker faults (the process
crashes); otherwise the collected entries together with the returned error.
The model serializes the workers in listing order; the code makes no ordering
guarantee, and none of the verified properties depend on the order. -/
def ExporterList (listing : Except String (List ContainerRun)) :
    Option (List StatsEntry × Option String) :=
  match listing with
  | .error e => some ([], some e)
  | .ok runs =>
    match runs.mapM workerEmits with
    | none => none
    | some emitted => some (emitted.flatten, none)

/-- Online-CPU count as the spec words it: the reported online-CPU count, or,
when that count is zero, the number of per-CPU usage entries. -/
def specOnlineCPUs (v : Types.StatsJSON) : ℕ :=
  if v.CPUStats.OnlineCPUs = 0 then v.CPUStats.CPUUsage.PercpuUsage.length
  else v.CPUStats.OnlineCPUs

/-- Concrete snapshot: current total usage 150 over 2 online CPUs, current
system usage 2000. -/
def cpuSnapshotEx : Types.StatsJSON :=
  ⟨"id0", "name0", ⟨⟨150, [1, 2]⟩, 2000, 2⟩, ⟨⟨100, [1, 2]⟩, 1000, 2⟩,
   ⟨0, 0, []⟩, ⟨[]⟩, []⟩

/-- Concrete memory snapshot whose cache stat exceeds its usage counter. -/
def memSnapshotWrap : Types.MemoryStats := ⟨0, 0, [("cache", 1)]⟩

/-- Concrete memory snapshot: usage 100, cache stat 30. -/
def memSnapshotOk : Types.MemoryStats := ⟨100, 0, [("cache", 30)]⟩

/-- Concrete memory snapshot with no cache stat at all. -/
def memSnapshotNoCache : Types.MemoryStats := ⟨5, 0, []⟩

/-- Whether the operation code of a block-IO entry starts with `r` or `R`. -/
def isRead (e : Types.BlkioStatEntry) : Bool :=
  match e.Op.data with
  | [] => false
  | c :: _ => c == 'r' || c == 'R'

/-- Whether the operation code of a block-IO entry starts with `w` or `W`. -/
def isWrite (e : Types.BlkioStatEntry) : Bool :=
  match e.Op.data with
  | [] => false
  | c :: _ => c == 'w' || c == 'W'

/-- Sum of `Value` over the entries whose operation code starts with `r`/`R`. -/
def blkReadSum (l : List Types.BlkioStatEntry) : ℕ :=
  ((l.filter isRead).map Types.BlkioStatEntry.Value).sum

/-- Sum of `Value` over the entries whose operation code starts with `w`/`W`. -/
def blkWriteSum (l : List Types.BlkioStatEntry) : ℕ :=
  ((l.filter isWrite).map Types.BlkioStatEntry.Value).sum

/-- Concrete block-IO list: a Read of 10 bytes, a Write of 20, a Sync of 5
(neither total), and an empty-op entry of 7. -/
def blkioListEx : List Types.BlkioStatEntry :=
  [⟨"Read", 10⟩, ⟨"Write", 20⟩, ⟨"Sync", 5⟩]

/-- An inspection result with an empty label mapping. -/
def inspectOkEmpty : InspectResult := .ok ⟨some ⟨[]⟩⟩

/-- A container whose stats fetch succeeds but whose body fails to decode. -/
def runDeriveFail : ContainerRun := ⟨.resp ⟨"linux", .badBody⟩, inspectOkEmpty⟩

/-- A container whose `ContainerStats` call fails. -/
def runFetchFail : ContainerRun := ⟨.fetchErr, inspectOkEmpty⟩

lemma onlineCPUs_cast (v : Types.StatsJSON) :
    (if (v.CPUStats.OnlineCPUs : ℚ) = 0 then
        (v.CPUStats.CPUUsage.PercpuUsage.length : ℚ)
      else (v.CPUStats.OnlineCPUs : ℚ)) = (specOnlineCPUs v : ℚ) := by
  unfold specOnlineCPUs
  split_ifs with h1 h2 h3 <;> simp_all [Nat.cast_eq_zero]

/-- C2: for every raw stats snapshot, the derived CPU percentage is 0 whenever
`cpuDelta <= 0` or `systemDelta <= 0`, and otherwise equals
`(cpuDelta / systemDelta) * onlineCPUs * 100`, where `onlineCPUs` is the
reported online-CPU count or, when that count is zero, the number of per-CPU
usage entries. -/
theorem c2_cpu_percent (prevCPU prevSystem : ℕ) (v : Types.StatsJSON) :
    (((v.CPUStats.CPUUsage.TotalUsage : ℚ) - (prevCPU : ℚ) ≤ 0 ∨
      (v.CPUStats.SystemUsage : ℚ) - (prevSystem : ℚ) ≤ 0) →
        calcCPUPercent prevCPU prevSystem v = 0) ∧
    (0 < (v.CPUStats.CPUUsage.TotalUsage : ℚ) - (prevCPU : ℚ) →
     0 < (v.CPUStats.SystemUsage : ℚ) - (prevSystem : ℚ) →
        calcCPUPercent prevCPU prevSystem v =
          (((v.CPUStats.CPUUsage.TotalUsage : ℚ) - (prevCPU : ℚ)) /
            ((v.CPUStats.SystemUsage : ℚ) - (prevSystem : ℚ))) *
            (specOnlineCPUs v : ℚ) * 100) := by
  constructor
  · intro hA
    simp only [calcCPUPercent]
    rw [if_neg]
    rintro ⟨hs, hc⟩
    rcases hA with h | h
    · exact absurd hc (not_lt.mpr h)
    · exact absurd hs (not_lt.mpr h)
  · intro hc hs
    simp only [calcCPUPercent]
    rw [if_pos ⟨hs, hc⟩, onlineCPUs_cast]

/-- Witness for `c2_cpu_percent` at a concrete snapshot, discharging both the
positive-delta hypotheses and the nonpositive-delta hypothesis. -/
theorem c2_cpu_percent_witness :
    (0 < (cpuSnapshotEx.CPUStats.CPUUsage.TotalUsage : ℚ) - ((100 : ℕ) : ℚ) ∧
     0 < (cpuSnapshotEx.CPUStats.SystemUsage : ℚ) - ((1000 : ℕ) : ℚ) ∧
     calcCPUPercent 100 1000 cpuSnapshotEx =
       (((cpuSnapshotEx.CPUStats.CPUUsage.TotalUsage : ℚ) - ((100 : ℕ) : ℚ)) /
         ((cpuSnapshotEx.CPUStats.SystemUsage : ℚ) - ((1000 : ℕ) : ℚ))) *
         (specOnlineCPUs cpuSnapshotEx : ℚ) * 100) ∧
    calcCPUPercent 200 1000 cpuSnapshotEx = 0 :=
  ⟨⟨by norm_num [cpuSnapshotEx], by norm_num [cpuSnapshotEx],
    (c2_cpu_percent 100 1000 cpuSnapshotEx).2 (by norm_num [cpuSnapshotEx])
      (by norm_num [cpuSnapshotEx])⟩,
   (c2_cpu_percent 200 1000 cpuSnapshotEx).1 (Or.inl (by norm_num [cpuSnapshotEx]))⟩

lemma u64sub_of_le (a b : ℕ) (ha : a < U64MOD) (h : b ≤ a) : u64sub a b = a - b := by
  have hm : U64MOD = 18446744073709551616 := by norm_num [U64MOD]
  unfold u64sub
  rw [hm] at ha ⊢
  omega

/-- C5 counterexample: at `usage = 0` with a cache stat of `1`, the Go
`uint64` subtraction wraps, so the derived value is `2^64 - 1`, not
`usage - cache = -1` as the unqualified subtraction of the claim states. -/
theorem c5_mem_usage_counterexample :
    calcMemUsageNoCache memSnapshotWrap ≠
      (memSnapshotWrap.Usage : ℚ) - (memSnapshotWrap.statsGet "cache" : ℚ) := by
  have h1 : memSnapshotWrap.statsGet "cache" = 1 := by
    simp [memSnapshotWrap, Types.MemoryStats.statsGet, List.lookup]
  have h2 : calcMemUsageNoCache memSnapshotWrap = ((18446744073709551615 : ℕ) : ℚ) := by
    norm_num [calcMemUsageNoCache, memSnapshotWrap, Types.MemoryStats.statsGet,
      List.lookup, u64sub, U64MOD]
  rw [h2, h1]
  simp [memSnapshotWrap]
  norm_num

/-- C5 amended: for every memory snapshot whose usage counter is a `uint64`
value and whose cache stat does not exceed it, the derived cache-excluded
memory usage equals the raw usage counter minus the cache stat, the cache
stat defaulting to 0 when absent from the stats mapping (outside this domain
the `uint64` subtraction wraps modulo `2^64`). -/
theorem c5_mem_usage_no_cache (mem : Types.MemoryStats) (h1 : mem.Usage < U64MOD)
    (h2 : mem.statsGet "cache" ≤ mem.Usage) :
    calcMemUsageNoCache mem = (mem.Usage : ℚ) - (mem.statsGet "cache" : ℚ) := by
  unfold calcMemUsageNoCache
  rw [u64sub_of_le _ _ h1 h2]
  exact Nat.cast_sub h2

/-- Witness for `c5_mem_usage_no_cache`: at usage 100 and cache 30 the result
is 70, and when the cache stat is absent it defaults to 0, giving the usage
itself. -/
theorem c5_mem_usage_no_cache_witness :
    (memSnapshotOk.Usage < U64MOD ∧
     memSnapshotOk.statsGet "cache" ≤ memSnapshotOk.Usage ∧
     calcMemUsageNoCache memSnapshotOk =
       (memSnapshotOk.Usage : ℚ) - (memSnapshotOk.statsGet "cache" : ℚ)) ∧
    (memSnapshotNoCache.statsGet "cache" = 0 ∧
     calcMemUsageNoCache memSnapshotNoCache =
       (memSnapshotNoCache.Usage : ℚ) - (memSnapshotNoCache.statsGet "cache" : ℚ)) :=
  ⟨⟨by norm_num [memSnapshotOk, U64MOD],
    by simp [memSnapshotOk, Types.MemoryStats.statsGet, List.lookup],
    c5_mem_usage_no_cache memSnapshotOk (by norm_num [memSnapshotOk, U64MOD])
      (by simp [memSnapshotOk, Types.MemoryStats.statsGet, List.lookup])⟩,
   ⟨by simp [memSnapshotNoCache, Types.MemoryStats.statsGet, List.lookup],
    c5_mem_usage_no_cache memSnapshotNoCache (by norm_num [memSnapshotNoCache, U64MOD])
      (by simp [memSnapshotNoCache, Types.MemoryStats.statsGet, List.lookup])⟩⟩

/-- C6: for every memory snapshot, the derived memory percentage equals
`usage / limit * 100` when the limit is nonzero, and is exactly 0 when the
limit is 0, with no division-by-zero fault (the function is total). -/
theorem c6_mem_percent (limit usedNoCache : ℚ) :
    (limit = 0 → calcMemPercentNoCache limit usedNoCache = 0) ∧
    (limit ≠ 0 → calcMemPercentNoCache limit usedNoCache = usedNoCache / limit * 100) := by
  constructor
  · intro h
    simp [calcMemPercentNoCache, h]
  · intro h
    simp [calcMemPercentNoCache, h]

/-- Witness for `c6_mem_percent` at limit 0 and at limit 2. -/
theorem c6_mem_percent_witness :
    calcMemPercentNoCache 0 7 = 0 ∧ calcMemPercentNoCache 2 50 = 50 / 2 * 100 :=
  ⟨(c6_mem_percent 0 7).1 rfl, (c6_mem_percent 2 50).2 (by norm_num)⟩

lemma calcNetwork_foldl (l : List (String × Types.NetworkStats)) (a b : ℚ) :
    l.foldl (fun acc kv => (acc.1 + (kv.2.RxBytes : ℚ), acc.2 + (kv.2.TxBytes : ℚ))) (a, b) =
      (a + (l.map (fun kv => (kv.2.RxBytes : ℚ))).sum,
       b + (l.map (fun kv => (kv.2.TxBytes : ℚ))).sum) := by
  induction l generalizing a b with
  | nil => simp
  | cons hd tl ih => simp [ih, add_assoc]

lemma calcNetwork_eq_sum (l : List (String × Types.NetworkStats)) :
    calcNetwork l = ((l.map (fun kv => (kv.2.RxBytes : ℚ))).sum,
                     (l.map (fun kv => (kv.2.TxBytes : ℚ))).sum) := by
  unfold calcNetwork
  rw [calcNetwork_foldl]
  simp

/-- C9: for every network mapping, the derived rx and tx totals equal the sums
of `RxBytes` and `TxBytes` across all entries, and the totals are independent
of the order in which the entries of the mapping are iterated. -/
theorem c9_network_totals :
    (∀ network : List (String × Types.NetworkStats),
       calcNetwork network =
         ((network.map (fun kv => (kv.2.RxBytes : ℚ))).sum,
          (network.map (fun kv => (kv.2.TxBytes : ℚ))).sum)) ∧
    (∀ network network' : List (String × Types.NetworkStats),
       network.Perm network' → calcNetwork network = calcNetwork network') :=
  ⟨calcNetwork_eq_sum, fun network network' h => by
    rw [calcNetwork_eq_sum, calcNetwork_eq_sum,
        (h.map (fun kv => (kv.2.RxBytes : ℚ))).sum_eq,
        (h.map (fun kv => (kv.2.TxBytes : ℚ))).sum_eq]⟩

/-- Witness for `c9_network_totals`: two interfaces iterated in either order
give the same totals, equal to the entry sums. -/
theorem c9_network_totals_witness :
    calcNetwork [("eth0", ⟨1, 2⟩), ("lo", ⟨3, 4⟩)] =
      calcNetwork [("lo", ⟨3, 4⟩), ("eth0", ⟨1, 2⟩)] ∧
    calcNetwork [("eth0", ⟨1, 2⟩), ("lo", ⟨3, 4⟩)] =
      (([("eth0", (⟨1, 2⟩ : Types.NetworkStats)), ("lo", ⟨3, 4⟩)].map
          (fun kv => (kv.2.RxBytes : ℚ))).sum,
       ([("eth0", (⟨1, 2⟩ : Types.NetworkStats)), ("lo", ⟨3, 4⟩)].map
          (fun kv => (kv.2.TxBytes : ℚ))).sum) :=
  ⟨c9_network_totals.2 _ _ (List.Perm.swap _ _ _),
   c9_network_totals.1 _⟩

lemma U64MOD_pos : 0 < U64MOD := by norm_num [U64MOD]

lemma u64add_lt (a b : ℕ) : u64add a b < U64MOD := by
  unfold u64add
  exact Nat.mod_lt _ U64MOD_pos

lemma blkReadSum_cons (e : Types.BlkioStatEntry) (l : List Types.BlkioStatEntry) :
    blkReadSum (e :: l) = (if isRead e then e.Value else 0) + blkReadSum l := by
  by_cases h : isRead e <;> simp [blkReadSum, List.filter_cons, h]

lemma blkWriteSum_cons (e : Types.BlkioStatEntry) (l : List Types.BlkioStatEntry) :
    blkWriteSum (e :: l) = (if isWrite e then e.Value else 0) + blkWriteSum l := by
  by_cases h : isWrite e <;> simp [blkWriteSum, List.filter_cons, h]

lemma calcBlockIO_foldl (l : List Types.BlkioStatEntry) (a b : ℕ)
    (ha : a < U64MOD) (hb : b < U64MOD) :
    l.foldl (fun acc bioEntry =>
      match bioEntry.Op.data with
      | [] => acc
      | c :: _ =>
        if c = 'r' ∨ c = 'R' then (u64add acc.1 bioEntry.Value, acc.2)
        else if c = 'w' ∨ c = 'W' then (acc.1, u64add acc.2 bioEntry.Value)
        else acc) ((a, b) : ℕ × ℕ) =
      ((a + blkReadSum l) % U64MOD, (b + blkWriteSum l) % U64MOD) := by
  induction l generalizing a b with
  | nil =>
    simp [blkReadSum, blkWriteSum, Nat.mod_eq_of_lt ha, Nat.mod_eq_of_lt hb]
  | cons hd tl ih =>
    rw [List.foldl_cons]
    cases hOp : hd.Op.data with
    | nil =>
      have hr : isRead hd = false := by simp [isRead, hOp]
      have hw : isWrite hd = false := by simp [isWrite, hOp]
      simp only [hOp]
      rw [ih a b ha hb]
      simp [blkReadSum_cons, blkWriteSum_cons, hr, hw]
    | cons c cs =>
      simp only [hOp]
      by_cases h1 : c = 'r' ∨ c = 'R'
      · have hr : isRead hd = true := by
          unfold isRead
          rw [hOp]
          show (c == 'r' || c == 'R') = true
          simp only [Bool.or_eq_true, beq_iff_eq]
          exact h1
        have hw : isWrite hd = false := by
          unfold isWrite
          rw [hOp]
          show (c == 'w' || c == 'W') = false
          rw [Bool.eq_false_iff]
          intro hcontra
          simp only [Bool.or_eq_true, beq_iff_eq] at hcontra
          rcases h1 with rfl | rfl <;> rcases hcontra with h | h <;> exact absurd h (by decide)
        rw [if_pos h1, ih (u64add a hd.Value) b (u64add_lt a hd.Value) hb]
        simp [blkReadSum_cons, blkWriteSum_cons, hr, hw, u64add, Nat.mod_add_mod, add_assoc]
      · by_cases h2 : c = 'w' ∨ c = 'W'
        · have hr : isRead hd = false := by
            unfold isRead
            rw [hOp]
            show (c == 'r' || c == 'R') = false
            rw [Bool.eq_false_iff]
            intro hcontra
            simp only [Bool.or_eq_true, beq_iff_eq] at hcontra
            exact h1 hcontra
          have hw : isWrite hd = true := by
            unfold isWrite
            rw [hOp]
            show (c == 'w' || c == 'W') = true
            simp only [Bool.or_eq_true, beq_iff_eq]
            exact h2
          rw [if_neg h1, if_pos h2, ih a (u64add b hd.Value) ha (u64add_lt b hd.Value)]
          simp [blkReadSum_cons, blkWriteSum_cons, hr, hw, u64add, Nat.mod_add_mod, add_assoc]
        · have hr : isRead hd = false := by
            unfold isRead
            rw [hOp]
            show (c == 'r' || c == 'R') = false
            rw [Bool.eq_false_iff]
            intro hcontra
            simp only [Bool.or_eq_true, beq_iff_eq] at hcontra
            exact h1 hcontra
          have hw : isWrite hd = false := by
            unfold isWrite
            rw [hOp]
            show (c == 'w' || c == 'W') = false
            rw [Bool.eq_false_iff]
            intro hcontra
            simp only [Bool.or_eq_true, beq_iff_eq] at hcontra
            exact h2 hcontra
          rw [if_neg h1, if_neg h2, ih a b ha hb]
          simp [blkReadSum_cons, blkWriteSum_cons, hr, hw]

lemma calcBlockIO_eq (l : List Types.BlkioStatEntry) :
    calcBlockIO ⟨l⟩ = (((blkReadSum l % U64MOD : ℕ) : ℚ),
                        ((blkWriteSum l % U64MOD : ℕ) : ℚ)) := by
  unfold calcBlockIO
  rw [calcBlockIO_foldl l 0 0 U64MOD_pos U64MOD_pos]
  simp

/-- C8: for every list of recursive I/O-service-bytes entries whose read and
write totals are representable in `uint64`, the block-read total is the sum of
`Value` over entries whose operation code starts with `r`/`R`, the block-write
total is the sum over entries starting with `w`/`W`, and every entry with an
empty operation code contributes 0 to both totals. -/
theorem c8_blkio_totals :
    (∀ l : List Types.BlkioStatEntry,
       blkReadSum l < U64MOD → blkWriteSum l < U64MOD →
       calcBlockIO ⟨l⟩ = ((blkReadSum l : ℚ), (blkWriteSum l : ℚ))) ∧
    (∀ (e : Types.BlkioStatEntry) (l : List Types.BlkioStatEntry), e.Op = "" →
       calcBlockIO ⟨e :: l⟩ = calcBlockIO ⟨l⟩) := by
  constructor
  · intro l hr hw
    rw [calcBlockIO_eq, Nat.mod_eq_of_lt hr, Nat.mod_eq_of_lt hw]
  · intro e l hOp
    have hd : e.Op.data = [] := by rw [hOp]
    have hre : isRead e = false := by unfold isRead; rw [hd]
    have hwe : isWrite e = false := by unfold isWrite; rw [hd]
    rw [calcBlockIO_eq, calcBlockIO_eq]
    simp [blkReadSum_cons, blkWriteSum_cons, hre, hwe]

/-- Witness for `c8_blkio_totals`: the example totals are (10, 20), and
prepending an empty-op entry leaves them unchanged. -/
theorem c8_blkio_totals_witness :
    (blkReadSum blkioListEx < U64MOD ∧ blkWriteSum blkioListEx < U64MOD ∧
     calcBlockIO ⟨blkioListEx⟩ =
       ((blkReadSum blkioListEx : ℚ), (blkWriteSum blkioListEx : ℚ))) ∧
    calcBlockIO ⟨⟨"", 7⟩ :: blkioListEx⟩ = calcBlockIO ⟨blkioListEx⟩ :=
  ⟨⟨by decide, by decide,
    c8_blkio_totals.1 blkioListEx (by decide) (by decide)⟩,
   c8_blkio_totals.2 ⟨"", 7⟩ blkioListEx rfl⟩

/-- C7: for every decoded snapshot whose response reports the Windows OS type,
the derived CPU percentage, memory usage, memory limit, memory percentage and
block read/write totals are all 0, while the network rx/tx totals are still
the actual interface sums. -/
theorem c7_windows_gate (v : Types.StatsJSON) :
    getStats ⟨"windows", .parsed v⟩ =
      some (⟨v.ID, v.Name, 0, 0, 0, 0,
             (v.Networks.map (fun kv => (kv.2.RxBytes : ℚ))).sum,
             (v.Networks.map (fun kv => (kv.2.TxBytes : ℚ))).sum,
             0, 0, []⟩, false) := by
  simp [getStats, calcNetwork_eq_sum]

lemma kubernetesLabels_lookup_ne_empty (k v : String)
    (h : KubernetesLabels.lookup k = some v) : v ≠ "" := by
  by_cases h1 : k = "io.kubernetes.pod.namespace"
  · subst h1
    simp [KubernetesLabels, List.lookup] at h
    simp [← h]
  · by_cases h2 : k = "io.kubernetes.pod.name"
    · subst h2
      simp [KubernetesLabels, List.lookup] at h
      simp [← h]
    · by_cases h3 : k = "io.kubernetes.container.name"
      · subst h3
        simp [KubernetesLabels, List.lookup] at h
        simp [← h]
      · have e1 : (k == "io.kubernetes.pod.namespace") = false := beq_eq_false_iff_ne.mpr h1
        have e2 : (k == "io.kubernetes.pod.name") = false := beq_eq_false_iff_ne.mpr h2
        have e3 : (k == "io.kubernetes.container.name") = false := beq_eq_false_iff_ne.mpr h3
        simp [KubernetesLabels, List.lookup, e1, e2, e3] at h

lemma projectLabels_foldl (containerLabels : List (String × String))
    (acc : List (String × String)) :
    containerLabels.foldl
      (fun labels kv =>
        if kubernetesLabelsGet kv.1 ≠ "" then labels ++ [(kubernetesLabelsGet kv.1, kv.2)]
        else labels) acc =
      acc ++ specProjectLabels containerLabels := by
  induction containerLabels generalizing acc with
  | nil => simp [specProjectLabels]
  | cons hd tl ih =>
    rw [List.foldl_cons]
    cases hLk : KubernetesLabels.lookup hd.1 with
    | none =>
      have hGet : kubernetesLabelsGet hd.1 = "" := by
        simp [kubernetesLabelsGet, hLk]
      rw [if_neg (by simp [hGet]), ih]
      simp [specProjectLabels, List.filterMap_cons, hLk]
    | some canonical =>
      have hne : canonical ≠ "" := kubernetesLabels_lookup_ne_empty hd.1 canonical hLk
      have hGet : kubernetesLabelsGet hd.1 = canonical := by
        simp [kubernetesLabelsGet, hLk]
      rw [if_pos (by simp [hGet, hne]), ih]
      simp [specProjectLabels, List.filterMap_cons, hLk, hGet]

lemma projectLabels_eq_spec (containerLabels : List (String × String)) :
    projectLabels containerLabels = specProjectLabels containerLabels := by
  unfold projectLabels
  rw [projectLabels_foldl]
  simp

/-- C10: label enrichment projects every inspected label mapping through the
fixed three-key vocabulary, dropping every unrecognized label; in particular
`io.kubernetes.pod.name = x` with an unrelated label yields exactly
`kubernetes_pod_name = x`. -/
theorem c10_label_projection :
    (∀ containerLabels : List (String × String),
       projectLabels containerLabels = specProjectLabels containerLabels) ∧
    projectLabels [("io.kubernetes.pod.name", "x"), ("unrelated", "y")] =
      [("kubernetes_pod_name", "x")] :=
  ⟨projectLabels_eq_spec, by decide⟩

/-- C4 evaluation: when the inspection call fails, `getLabels` recreates the
client handle and logs a warning, but then dereferences the nil `Config`
pointer of the zero-value inspect result — a run-time fault (`stats = none`)
instead of the empty label mapping the spec promises. -/
theorem c4_labels_inspect_failure :
    getLabels .err StatsEntry.zero =
      ⟨true, true, none⟩ := rfl

/-- C1 evaluation: a single listed container whose stats derivation fails
contributes TWO entries to the result (the error branch sends the placeholder
but does not return), so the result length is 2, not the listed count 1; and
a single container whose stats fetch fails makes the worker read the nil body
of the zero response, a run-time fault, so `List` never returns at all. -/
theorem c1_one_entry_per_container :
    ([runDeriveFail].length = 1 ∧
     ExporterList (.ok [runDeriveFail]) =
       some ([StatsEntry.zero, StatsEntry.zero.withLabels []], none)) ∧
    ExporterList (.ok [runFetchFail]) = none :=
  ⟨⟨rfl, by decide⟩, rfl⟩

/-- C3: if the container listing fails, `List` returns the empty sequence
together with the underlying error; and whenever `List` returns at all on a
successful listing, the error component is nil — per-container failures are
never surfaced as an error. -/
theorem c3_listing_failure :
    (∀ e : String, ExporterList (.error e) = some ([], some e)) ∧
    (∀ (runs : List ContainerRun) (p : List StatsEntry × Option String),
       ExporterList (.ok runs) = some p → p.2 = none) := by
  refine ⟨fun e => rfl, fun runs p h => ?_⟩
  simp only [ExporterList] at h
  cases hm : runs.mapM workerEmits with
  | none => rw [hm] at h; exact absurd h (by simp)
  | some emitted =>
    rw [hm] at h
    injection h with h1
    rw [← h1]

/-- Witness for `c3_listing_failure`: a concrete failed listing, and the empty
successful listing whose result has a nil error. -/
theorem c3_listing_failure_witness :
    ExporterList (.error "boom") = some ([], some "boom") ∧
    ((([] : List StatsEntry), (none : Option String)).2 = none) :=
  ⟨c3_listing_failure.1 "boom", c3_listing_failure.2 [] ([], none) rfl⟩
